import Mathlib

/-!
Verification of the demeter repository's core against its specification.

The Python source is shallowly embedded in Lean:
* `decimal.Decimal` values (exact decimal fractions, arbitrary precision for
  the magnitudes occurring here) are embedded as `ℚ`, with the float literal
  `0.00001` of `BrokerAsset.sub` read as the rational `1 / 100000`;
* fallible code (`raise DemeterError`, pandas `ValueError`) is embedded as
  `Except`;
* a pandas column (`Series`) is a `List (Option ℤ)` (a missing cell, `NaN`,
  is `none`), and a `DataFrame` is an association list of named columns.
-/

namespace Demeter

/-- Error raised by `BrokerAsset.sub` when the balance is insufficient.
The Python code raises `DemeterError` with a message interpolating the token
name, the current balance and the requested amount; the embedding keeps those
three fields structurally. -/
inductive SubError where
  | insufficientBalance (name : String) (balance : ℚ) (amount : ℚ)
deriving DecidableEq

/-- Embeds `BrokerAsset.__init__` of `src/demeter/uniswap/_typing.py`:
token name, token decimal and the current balance. -/
structure BrokerAsset where
  name : String
  decimal : ℕ
  balance : ℚ
deriving DecidableEq

/-- The local variable `base` of `BrokerAsset.sub` (line 137):
`base = self.balance if self.balance != Decimal(0) else Decimal(amount)`. -/
def BrokerAsset.base (a : BrokerAsset) (amount : ℚ) : ℚ :=
  if a.balance ≠ 0 then a.balance else amount

/-- Embeds `BrokerAsset.sub` (lines 126-154 of
`src/demeter/uniswap/_typing.py`).  The Python method mutates `self.balance`
and returns `self`, raising before any mutation in the insolvent branch; the
embedding returns the post-state (`Except.ok`) or the error (`Except.error`),
so an error leaves the stored balance unchanged by construction. -/
def BrokerAsset.sub (a : BrokerAsset) (amount : ℚ) (allow_negative_balance : Bool) :
    Except SubError BrokerAsset :=
  if a.base amount = 0 then Except.ok a
  else if allow_negative_balance then Except.ok ⟨a.name, a.decimal, a.balance - amount⟩
  else if |(a.balance - amount) / a.base amount| < 1 / 100000 then
    Except.ok ⟨a.name, a.decimal, 0⟩
  else if a.balance - amount < 0 then
    Except.error (SubError.insufficientBalance a.name a.balance amount)
  else Except.ok ⟨a.name, a.decimal, a.balance - amount⟩

/-- Python `int()` applied to a non-integral `Decimal` truncates toward zero. -/
def pyInt (q : ℚ) : ℤ :=
  if 0 ≤ q then ⌊q⌋ else ⌈q⌉

namespace UniV3Pool

/-- Embeds `self.tickSpacing = int(fee * 200)` of `UniV3Pool.__init__`
(line 33 of `src/demeter/uniswap/_typing.py`).  `fee` is
`Decimal(str(fee))`, i.e. the exact decimal value of the fee-tier literal,
embedded as a rational. -/
def tickSpacing (fee : ℚ) : ℤ :=
  pyInt (fee * 200)

/-- Embeds `self.fee = fee * Decimal(10000)` of `UniV3Pool.__init__`. -/
def fee (f : ℚ) : ℚ := f * 10000

/-- Embeds `self.fee_rate = Decimal(fee) / Decimal(100)` of `UniV3Pool.__init__`. -/
def fee_rate (f : ℚ) : ℚ := f / 100

end UniV3Pool

section AssetLedgerClaims

/-- Positivity of the `base` denominator under the claims' hypotheses. -/
private lemma base_pos (a : BrokerAsset) (amount : ℚ)
    (hB : 0 ≤ a.balance) (hA : 0 ≤ amount) (hnz : ¬(a.balance = 0 ∧ amount = 0)) :
    0 < a.base amount := by
  unfold BrokerAsset.base
  by_cases h : a.balance = 0
  · have hA0 : amount ≠ 0 := fun h0 => hnz ⟨h, h0⟩
    simp only [h, ne_eq, not_true_eq_false, if_false]
    exact lt_of_le_of_ne hA (Ne.symm hA0)
  · simp only [ne_eq, h, not_false_eq_true, if_true]
    exact lt_of_le_of_ne hB (Ne.symm h)

/-- With a positive `base`, the absolute value of the quotient computed by the
code equals the quotient of the absolute value stated by the claim. -/
private lemma abs_quot_eq (a : BrokerAsset) (amount : ℚ) (hpos : 0 < a.base amount) :
    |(a.balance - amount) / a.base amount| = |a.balance - amount| / a.base amount := by
  rw [abs_div, abs_of_pos hpos]

/-- C1: for a ledger with balance `B ≥ 0` and a debit of `A ≥ 0` with
`allow_negative=false`, `B` and `A` not both zero, if
`|B - A| / base < 1e-5` (with `base = B` when `B ≠ 0`, else `A`) then the
debit succeeds and sets the stored balance to exactly zero — including when
`A` slightly exceeds `B`. -/
theorem sub_dust_snap (a : BrokerAsset) (amount : ℚ)
    (hB : 0 ≤ a.balance) (hA : 0 ≤ amount) (hnz : ¬(a.balance = 0 ∧ amount = 0))
    (hdiff : |a.balance - amount| / (if a.balance ≠ 0 then a.balance else amount)
      < 1 / 100000) :
    a.sub amount false = Except.ok ⟨a.name, a.decimal, 0⟩ := by
  have hpos : 0 < a.base amount := base_pos a amount hB hA hnz
  have hdiff' : |(a.balance - amount) / a.base amount| < 1 / 100000 := by
    rw [abs_quot_eq a amount hpos]
    exact hdiff
  unfold BrokerAsset.sub
  rw [if_neg (ne_of_gt hpos), if_neg (by simp), if_pos hdiff']

/-- C1 witness: balance 100, debit 100.00003 (the spec's scenario): relative
difference 3e-7 < 1e-5, so the balance snaps to exactly zero with no error. -/
theorem sub_dust_snap_witness :
    |(100 : ℚ) - 10000003 / 100000| /
        (if (100 : ℚ) ≠ 0 then (100 : ℚ) else 10000003 / 100000) < 1 / 100000 ∧
    BrokerAsset.sub ⟨"usdc", 6, 100⟩ (10000003 / 100000) false =
      Except.ok ⟨"usdc", 6, 0⟩ := by
  have h : |(100 : ℚ) - 10000003 / 100000| /
      (if (100 : ℚ) ≠ 0 then (100 : ℚ) else 10000003 / 100000) < 1 / 100000 := by
    rw [if_pos (by norm_num : (100 : ℚ) ≠ 0),
      show (100 : ℚ) - 10000003 / 100000 = -(3 / 100000) by norm_num, abs_neg,
      abs_of_pos (by norm_num : (0 : ℚ) < 3 / 100000)]
    norm_num
  exact ⟨h, sub_dust_snap ⟨"usdc", 6, 100⟩ (10000003 / 100000)
    (by norm_num) (by norm_num) (by norm_num) h⟩

/-- C2: with balance `B ≥ 0`, debit amount `A ≥ 0`, not both zero and
`allow_negative=false`: the debit raises `InsufficientBalance` — carrying the
token name, the balance and the requested amount — if and only if
`B - A < 0` and `|B - A| / base ≥ 1e-5`; moreover any raised error is exactly
that record (it carries the unchanged pre-debit balance, and the embedding
returns no mutated state on the error path). -/
theorem sub_insufficient_iff (a : BrokerAsset) (amount : ℚ)
    (hB : 0 ≤ a.balance) (hA : 0 ≤ amount) (hnz : ¬(a.balance = 0 ∧ amount = 0)) :
    (a.sub amount false =
        Except.error (SubError.insufficientBalance a.name a.balance amount) ↔
      (a.balance - amount < 0 ∧
        1 / 100000 ≤ |a.balance - amount| /
          (if a.balance ≠ 0 then a.balance else amount))) ∧
    (∀ e, a.sub amount false = Except.error e →
      e = SubError.insufficientBalance a.name a.balance amount) := by
  have hpos : 0 < a.base amount := base_pos a amount hB hA hnz
  have habs := abs_quot_eq a amount hpos
  have hbase : a.base amount = if a.balance ≠ 0 then a.balance else amount := rfl
  unfold BrokerAsset.sub
  rw [if_neg (ne_of_gt hpos), if_neg (by simp)]
  by_cases hs : |(a.balance - amount) / a.base amount| < 1 / 100000
  · rw [if_pos hs]
    constructor
    · constructor
      · intro h
        exact absurd h (by simp)
      · rintro ⟨-, hge⟩
        rw [← hbase, ← habs] at hge
        exact absurd hs (not_lt_of_le hge)
    · intro e he
      exact absurd he (by simp)
  · rw [if_neg hs]
    by_cases hneg : a.balance - amount < 0
    · rw [if_pos hneg]
      refine ⟨⟨fun _ => ⟨hneg, ?_⟩, fun _ => rfl⟩, fun e he => ?_⟩
      · rw [← hbase, ← habs]
        exact le_of_not_lt hs
      · injection he with h
        exact h.symm
    · rw [if_neg hneg]
      constructor
      · constructor
        · intro h
          exact absurd h (by simp)
        · rintro ⟨hlt, -⟩
          exact absurd hlt hneg
      · intro e he
        exact absurd he (by simp)

/-- C2 witness: balance 1, debit 2: the shortfall is far above the tolerance,
so the debit raises `InsufficientBalance` carrying token, balance and amount. -/
theorem sub_insufficient_iff_witness :
    BrokerAsset.sub ⟨"usdc", 6, 1⟩ 2 false =
      Except.error (SubError.insufficientBalance "usdc" 1 2) := by
  refine ((sub_insufficient_iff ⟨"usdc", 6, 1⟩ 2
      (by norm_num) (by norm_num) (by norm_num)).1).mpr ⟨by norm_num, ?_⟩
  rw [if_pos (by norm_num : (1 : ℚ) ≠ 0),
    show (1 : ℚ) - 2 = -1 by norm_num, abs_neg, abs_one]
  norm_num

/-- C10: a debit of a strictly positive amount from a zero balance with
`allow_negative=false` always raises `InsufficientBalance` (the relative
difference is exactly 1, so the dust snap never applies), and the error
carries the unchanged zero balance. -/
theorem sub_zero_balance_raises (a : BrokerAsset) (amount : ℚ)
    (h0 : a.balance = 0) (hA : 0 < amount) :
    a.sub amount false =
      Except.error (SubError.insufficientBalance a.name a.balance amount) := by
  have hbase : a.base amount = amount := by
    unfold BrokerAsset.base
    simp [h0]
  unfold BrokerAsset.sub
  rw [hbase, if_neg (ne_of_gt hA), if_neg (by simp)]
  have hquot : (a.balance - amount) / amount = -1 := by
    rw [h0, zero_sub, neg_div, div_self (ne_of_gt hA)]
  rw [hquot, if_neg (by rw [abs_neg, abs_one]; norm_num),
    if_pos (by rw [h0, zero_sub]; exact neg_neg_of_pos hA)]

/-- C10 witness: debiting 1 from a zero balance raises `InsufficientBalance`. -/
theorem sub_zero_balance_raises_witness :
    BrokerAsset.sub ⟨"eth", 18, 0⟩ 1 false =
      Except.error (SubError.insufficientBalance "eth" 0 1) :=
  sub_zero_balance_raises ⟨"eth", 18, 0⟩ 1 rfl (by norm_num)

end AssetLedgerClaims

section PoolClaims

/-- C9: for every non-negative fee tier `f` given as a percent, the pool's
`tickSpacing` equals `⌊f * 200⌋` over exact decimal arithmetic (the value is
an integer by construction, `tickSpacing : ℤ`); in particular `int()`
truncation coincides with the floor on the non-negative domain. -/
theorem tickSpacing_floor (f : ℚ) (h : 0 ≤ f) :
    UniV3Pool.tickSpacing f = ⌊f * 200⌋ := by
  unfold UniV3Pool.tickSpacing pyInt
  rw [if_pos (mul_nonneg h (by norm_num))]

/-- C9 witness: fee 0.05 gives tick spacing 10, fee 0.3 gives 60, fee 1
gives 200. -/
theorem tickSpacing_floor_witness :
    (0 : ℚ) ≤ 1 / 20 ∧
    UniV3Pool.tickSpacing (1 / 20) = 10 ∧
    UniV3Pool.tickSpacing (3 / 10) = 60 ∧
    UniV3Pool.tickSpacing 1 = 200 := by
  refine ⟨by norm_num, ?_, ?_, ?_⟩
  · rw [tickSpacing_floor (1 / 20) (by norm_num),
      show (1 / 20 : ℚ) * 200 = ((10 : ℤ) : ℚ) by norm_num, Int.floor_intCast]
  · rw [tickSpacing_floor (3 / 10) (by norm_num),
      show (3 / 10 : ℚ) * 200 = ((60 : ℤ) : ℚ) by norm_num, Int.floor_intCast]
  · rw [tickSpacing_floor 1 (by norm_num),
      show (1 : ℚ) * 200 = ((200 : ℤ) : ℚ) by norm_num, Int.floor_intCast]

end PoolClaims

/-! ## Series normalizer (`src/demeter/uniswap/data.py`) -/

/-- A pandas column: one optional integer cell per bar (`none` is `NaN`). -/
abbrev Col := List (Option ℤ)

/-- A pandas `DataFrame`: named columns in order. -/
abbrev Df := List (String × Col)

/-- A pandas fill method (`ffill` = forward fill, `bfill` = backward fill). -/
inductive FillMethod where
  | ffill
  | bfill
deriving DecidableEq

/-- Embeds `demeter.broker.Rule` as used by `data.py`: an aggregation method
name, a fillna method and a fillna value, each possibly `None`. -/
structure Rule where
  agg : Option String
  fillna_method : Option FillMethod
  fillna_value : Option ℤ
deriving DecidableEq

/-- Embeds `EMPTY_RULE = Rule(None, None, None)` (line 13 of `data.py`). -/
def EMPTY_RULE : Rule := ⟨none, none, none⟩

/-- Embeds `DEFAULT_AGG_METHOD = "first"` (line 12 of `data.py`). -/
def DEFAULT_AGG_METHOD : String := "first"

/-- Embeds the `LINE_RULES` table (lines 72-83 of `data.py`). -/
def LINE_RULES : List (String × Rule) :=
  [("timestamp", EMPTY_RULE),
   ("netAmount0", ⟨some "sum", none, some 0⟩),
   ("netAmount1", ⟨some "sum", none, some 0⟩),
   ("closeTick", ⟨some "last", some FillMethod.ffill, none⟩),
   ("openTick", ⟨some "first", some FillMethod.ffill, none⟩),
   ("lowestTick", ⟨some "min", some FillMethod.ffill, none⟩),
   ("highestTick", ⟨some "max", some FillMethod.ffill, none⟩),
   ("inAmount0", ⟨some "sum", none, some 0⟩),
   ("inAmount1", ⟨some "sum", none, some 0⟩),
   ("currentLiquidity", ⟨some "sum", some FillMethod.ffill, none⟩)]

/-- Embeds `get_line_rules_safe` (lines 86-90 of `data.py`). -/
def get_line_rules_safe (key : String) : Rule :=
  (LINE_RULES.lookup key).getD EMPTY_RULE

/-- Forward fill with a carried last-seen value (`none` before any value). -/
def ffillAux (carry : Option ℤ) : Col → Col
  | [] => []
  | o :: rest =>
    match o with
    | some v => some v :: ffillAux (some v) rest
    | none => carry :: ffillAux carry rest

/-- pandas forward fill: each missing cell takes the last preceding value;
a leading gap (no preceding value) stays missing. -/
def ffill (c : Col) : Col :=
  ffillAux none c

/-- pandas backward fill: each missing cell takes the next following value. -/
def bfill (c : Col) : Col :=
  (ffillAux none c.reverse).reverse

/-- pandas `Series.fillna(value=series)`: each missing cell takes the other
series' cell at the same position (missing if that cell is itself missing or
out of range). -/
def fillFromSeries : Col → Col → Col
  | _, [] => []
  | base, o :: rest =>
    (match o with
     | some v => some v
     | none => base.head?.join) :: fillFromSeries base.tail rest

/-- pandas `Series.fillna(value, method)` with a scalar (or absent) value:
raises when both or neither of `value`/`method` are given, otherwise fills
with the value or applies the method. -/
def series_fillna (value : Option ℤ) (method : Option FillMethod) (c : Col) :
    Except String Col :=
  match value, method with
  | some _, some _ => Except.error "Cannot specify both value and method"
  | none, none => Except.error "Must specify a fill value or method"
  | some v, none => Except.ok (c.map (fun o => some (o.getD v)))
  | none, some FillMethod.ffill => Except.ok (ffill c)
  | none, some FillMethod.bfill => Except.ok (bfill c)

/-- Applies a fallible per-column transformation to every column of a frame,
aborting at the first error (Python: the exception propagates out of the
column loop). -/
def mapColsM (f : String → Col → Except String Col) : Df → Except String Df
  | [] => Except.ok []
  | (n, c) :: rest =>
    match f n c with
    | Except.error e => Except.error e
    | Except.ok c' =>
      match mapColsM f rest with
      | Except.error e => Except.error e
      | Except.ok rest' => Except.ok ((n, c') :: rest')

/-- The three tick columns overridden to take the filled closing tick
(lines 177-179 of `data.py`). -/
def tickCols : List String := ["openTick", "highestTick", "lowestTick"]

/-- Embeds the body of the `fillna` column loop (lines 167-185 of `data.py`)
for one column.  `ctFilled` is the pass-1 forward-filled closing-tick column
when that column is present (`closeTick in new_df.columns`). -/
def fillColumn (value : Option ℤ) (method : Option FillMethod)
    (ctFilled : Option Col) (name : String) (c : Col) : Except String Col :=
  if name = "closeTick" then
    Except.ok (ctFilled.getD c)
  else
    let rule := get_line_rules_safe name
    if rule.fillna_method = none ∧ rule.fillna_value = none then
      series_fillna value method c
    else
      if name ∈ tickCols ∧ ctFilled.isSome then
        Except.ok (fillFromSeries (ctFilled.getD []) c)
      else
        series_fillna
          (match rule.fillna_value with
           | some v => some v
           | none => value)
          (match rule.fillna_method with
           | some m => some m
           | none => method) c

/-- Embeds `fillna` (lines 141-186 of `data.py`): pass 1 forward-fills the
closing-tick column when present, then every column is filled by its
registered rule (tick columns taking the filled closing tick), falling back
to the caller's `value`/`method`. -/
def fillna (value : Option ℤ) (method : Option FillMethod) (df : Df) :
    Except String Df :=
  mapColsM (fillColumn value method ((df.lookup "closeTick").map ffill)) df

/-- Embeds the aggregation-method dispatch of `resample`
(lines 128-136 of `data.py`): the registered rule's method wins; otherwise
the caller's `agg` entry; otherwise `DEFAULT_AGG_METHOD`. -/
def selectAggMethod (agg : List (String × String)) (column_name : String) : String :=
  match (get_line_rules_safe column_name).agg with
  | some m => m
  | none =>
    match agg.lookup column_name with
    | some m => m
    | none => DEFAULT_AGG_METHOD

/-- The pandas aggregation methods produced by `LINE_RULES` and
`DEFAULT_AGG_METHOD`. -/
inductive AggM where
  | sum
  | first
  | last
  | min
  | max
deriving DecidableEq

/-- Parses an aggregation-method name; pandas raises on an unknown one. -/
def parseAgg (s : String) : Option AggM :=
  if s = "sum" then some AggM.sum
  else if s = "first" then some AggM.first
  else if s = "last" then some AggM.last
  else if s = "min" then some AggM.min
  else if s = "max" then some AggM.max
  else none

/-- pandas aggregation of the present (non-`NaN`) values of one bar:
`sum` of an all-missing bar is 0, the others are missing on an empty bar. -/
def applyAgg (m : AggM) (vs : List ℤ) : Option ℤ :=
  match m with
  | AggM.sum => some vs.sum
  | AggM.first => vs.head?
  | AggM.last => vs.getLast?
  | AggM.min => vs.min?
  | AggM.max => vs.max?

/-- Whether a record falls in the same resampling bar as time `t`
(bars of width `w`). -/
def sameKey (w t : ℕ) (r : ℕ × Option ℤ) : Bool :=
  r.1 / w == t / w

/-- Fuelled worker for `resampleColumn`: each step consumes the first
remaining bar (all records sharing the leading record's time bucket) and
recurses on the records of the later bars.  The fuel only serves structural
termination; one unit per record always suffices. -/
def resampleColumnFuel : ℕ → ℕ → AggM → List (ℕ × Option ℤ) → Col
  | 0, _, _, _ => []
  | _ + 1, _, _, [] => []
  | fuel + 1, w, m, (t, v) :: rest =>
    applyAgg m (((t, v) :: rest.filter (sameKey w t)).filterMap Prod.snd) ::
      resampleColumnFuel fuel w m (rest.filter (fun r => !(sameKey w t r)))

/-- pandas `resample(...).agg(method)` on one column: the timestamped cells
are grouped into bars of width `w` (buckets of `timestamp / w`, in order of
first appearance) and each bar is aggregated with `m`. -/
def resampleColumn (w : ℕ) (m : AggM) (rows : List (ℕ × Option ℤ)) : Col :=
  resampleColumnFuel rows.length w m rows

/-- One column of `resample` (lines 125-137 of `data.py`): the method chosen
by `selectAggMethod` is applied to the column grouped by the timestamps. -/
def aggColumn (w : ℕ) (agg : List (String × String)) (ts : List ℕ)
    (name : String) (c : Col) : Except String Col :=
  match parseAgg (selectAggMethod agg name) with
  | none => Except.error "unknown aggregation method"
  | some m => Except.ok (resampleColumn w m (ts.zip c))

/-- Embeds `resample` (lines 93-138 of `data.py`) over a frame indexed by
integer timestamps `ts`. -/
def resample (w : ℕ) (agg : List (String × String)) (ts : List ℕ) (df : Df) :
    Except String Df :=
  mapColsM (aggColumn w agg ts) df

/-- Boolean: the column has no missing cell. -/
def noneFree (c : Col) : Bool :=
  c.all Option.isSome

/-- Boolean: the column is empty or starts with a present cell (the part of a
column that forward fill can leave missing is exactly a leading gap). -/
def headFilled (c : Col) : Bool :=
  match c with
  | [] => true
  | o :: _ => o.isSome

/-- Boolean: an `Except` is a success. -/
def exOk {α : Type} (x : Except String α) : Bool :=
  match x with
  | Except.ok _ => true
  | Except.error _ => false

/-- The recognized data columns named by the spec's fill-completeness
post-condition. -/
def recognizedDataCols : List String :=
  ["closeTick", "openTick", "lowestTick", "highestTick",
   "netAmount0", "netAmount1", "inAmount0", "inAmount1", "currentLiquidity"]

/-- The columns whose registered rule carries fill value zero. -/
def zeroFillCols : List String :=
  ["netAmount0", "netAmount1", "inAmount0", "inAmount1"]

/-- The columns whose registered rule is `sum`. -/
def sumRuleCols : List String :=
  ["netAmount0", "netAmount1", "inAmount0", "inAmount1", "currentLiquidity"]

section FrameLemmas

/-- A successful association-list lookup yields a member of the list. -/
private lemma lookup_mem :
    ∀ {l : Df} {n : String} {c : Col}, l.lookup n = some c → (n, c) ∈ l := by
  intro l
  induction l with
  | nil => intro n c h; simp [List.lookup] at h
  | cons hd tl ih =>
    intro n c h
    obtain ⟨m, d⟩ := hd
    simp only [List.lookup] at h
    cases hbeq : n == m
    · rw [hbeq] at h
      exact List.mem_cons_of_mem _ (ih h)
    · rw [hbeq] at h
      injection h with h
      have hm : n = m := eq_of_beq hbeq
      subst hm
      subst h
      exact List.mem_cons_self _ _

/-- Looking up a column of the input frame across a successful `mapColsM`. -/
private lemma mapColsM_lookup {f : String → Col → Except String Col} :
    ∀ {df df' : Df}, mapColsM f df = Except.ok df' →
      ∀ {n : String} {c : Col}, df.lookup n = some c →
        ∃ c', f n c = Except.ok c' ∧ df'.lookup n = some c' := by
  intro df
  induction df with
  | nil => intro df' h n c hc; simp [List.lookup] at hc
  | cons hd tl ih =>
    intro df' h n c hc
    obtain ⟨m, d⟩ := hd
    simp only [mapColsM] at h
    cases hf : f m d with
    | error e => rw [hf] at h; exact absurd h (by simp)
    | ok d' =>
      rw [hf] at h
      cases hrest : mapColsM f tl with
      | error e => rw [hrest] at h; exact absurd h (by simp)
      | ok rest' =>
        rw [hrest] at h
        injection h with h
        subst h
        simp only [List.lookup] at hc ⊢
        cases hbeq : n == m
        · rw [hbeq] at hc
          exact ih hrest hc
        · rw [hbeq] at hc
          have hc2 : some d = some c := hc
          injection hc2 with hc2
          have hm : n = m := eq_of_beq hbeq
          subst hm
          subst hc2
          exact ⟨d', hf, rfl⟩

/-- Looking up a column of the output frame across a successful `mapColsM`. -/
private lemma mapColsM_lookup_rev {f : String → Col → Except String Col} :
    ∀ {df df' : Df}, mapColsM f df = Except.ok df' →
      ∀ {n : String} {c' : Col}, df'.lookup n = some c' →
        ∃ c, df.lookup n = some c ∧ f n c = Except.ok c' := by
  intro df
  induction df with
  | nil =>
    intro df' h n c' hc'
    simp only [mapColsM] at h
    injection h with h
    subst h
    simp [List.lookup] at hc'
  | cons hd tl ih =>
    intro df' h n c' hc'
    obtain ⟨m, d⟩ := hd
    simp only [mapColsM] at h
    cases hf : f m d with
    | error e => rw [hf] at h; exact absurd h (by simp)
    | ok d' =>
      rw [hf] at h
      cases hrest : mapColsM f tl with
      | error e => rw [hrest] at h; exact absurd h (by simp)
      | ok rest' =>
        rw [hrest] at h
        injection h with h
        subst h
        simp only [List.lookup] at hc' ⊢
        cases hbeq : n == m
        · rw [hbeq] at hc'
          exact ih hrest hc'
        · rw [hbeq] at hc'
          have hc2 : some d' = some c' := hc'
          injection hc2 with hc2
          have hm : n = m := eq_of_beq hbeq
          subst hm
          subst hc2
          exact ⟨d, rfl, hf⟩

/-- If any column's transformation fails, the whole `mapColsM` fails. -/
private lemma mapColsM_mem_error {f : String → Col → Except String Col} :
    ∀ {df : Df} {n : String} {c : Col} {e : String},
      (n, c) ∈ df → f n c = Except.error e → exOk (mapColsM f df) = false := by
  intro df
  induction df with
  | nil => intro n c e hmem _; simp at hmem
  | cons hd tl ih =>
    intro n c e hmem hf
    obtain ⟨m, d⟩ := hd
    simp only [mapColsM]
    rcases List.mem_cons.mp hmem with heq | hmem'
    · injection heq with h1 h2
      subst h1
      subst h2
      rw [hf]
      rfl
    · cases hfmd : f m d with
      | error e' => rfl
      | ok d' =>
        cases hrest : mapColsM f tl with
        | error e' => rfl
        | ok rest' =>
          have := ih hmem' hf
          rw [hrest] at this
          exact absurd this (by simp [exOk])

/-- Forward fill leaves no missing cell once a value has been seen or the
column starts with one. -/
private lemma ffillAux_noneFree :
    ∀ (c : Col) (carry : Option ℤ), (carry.isSome || headFilled c) = true →
      noneFree (ffillAux carry c) = true := by
  intro c
  induction c with
  | nil => intro carry _; rfl
  | cons o rest ih =>
    intro carry h
    cases o with
    | some v =>
      simp only [ffillAux, noneFree, List.all_cons, Option.isSome_some,
        Bool.true_and]
      exact ih (some v) (by simp)
    | none =>
      have hcarry : carry.isSome = true := by
        simpa [headFilled] using h
      obtain ⟨cv, rfl⟩ := Option.isSome_iff_exists.mp hcarry
      simp only [ffillAux, noneFree, List.all_cons, Option.isSome_some,
        Bool.true_and]
      exact ih (some cv) (by simp)

/-- A column that starts with a present cell is fully filled by `ffill`. -/
private lemma ffill_noneFree {c : Col} (h : headFilled c = true) :
    noneFree (ffill c) = true :=
  ffillAux_noneFree c none (by simpa using h)

/-- `ffillAux` preserves the column length. -/
private lemma ffillAux_length :
    ∀ (c : Col) (carry : Option ℤ), (ffillAux carry c).length = c.length := by
  intro c
  induction c with
  | nil => intro carry; rfl
  | cons o rest ih =>
    intro carry
    cases o <;> simp [ffillAux, ih]

/-- `ffill` preserves the column length. -/
private lemma ffill_length (c : Col) : (ffill c).length = c.length :=
  ffillAux_length c none

/-- Filling from a fully present base series of sufficient length leaves no
missing cell. -/
private lemma fillFromSeries_noneFree :
    ∀ (c base : Col), noneFree base = true → c.length ≤ base.length →
      noneFree (fillFromSeries base c) = true := by
  intro c
  induction c with
  | nil => intro base _ _; rfl
  | cons o rest ih =>
    intro base hb hlen
    cases base with
    | nil => simp at hlen
    | cons b bs =>
      have hb' : b.isSome = true ∧ noneFree bs = true := by
        simpa [noneFree] using hb
      have hlen' : rest.length ≤ bs.length := by
        simpa using hlen
      cases o with
      | some v =>
        have heq : fillFromSeries (b :: bs) (some v :: rest) =
            some v :: fillFromSeries bs rest := rfl
        rw [heq, show noneFree (some v :: fillFromSeries bs rest) =
          ((some v).isSome && noneFree (fillFromSeries bs rest)) from rfl,
          Bool.and_eq_true]
        exact ⟨rfl, ih bs hb'.2 hlen'⟩
      | none =>
        have heq : fillFromSeries (b :: bs) (none :: rest) =
            b :: fillFromSeries bs rest := rfl
        rw [heq, show noneFree (b :: fillFromSeries bs rest) =
          (b.isSome && noneFree (fillFromSeries bs rest)) from rfl,
          Bool.and_eq_true]
        exact ⟨hb'.1, ih bs hb'.2 hlen'⟩

/-- Pointwise description of `fillFromSeries`: a present cell is kept, a
missing cell takes the base series' cell at the same position. -/
private lemma fillFromSeries_getElem :
    ∀ (xs base : Col) (i : ℕ),
      (fillFromSeries base xs)[i]? =
        (xs[i]?).map (fun o =>
          match o with
          | some v => some v
          | none => (base[i]?).join) := by
  intro xs
  induction xs with
  | nil => intro base i; simp [fillFromSeries]
  | cons o rest ih =>
    intro base i
    cases i with
    | zero =>
      cases o with
      | some v => simp [fillFromSeries]
      | none =>
        simp only [fillFromSeries, List.getElem?_cons_zero, Option.map_some']
        rw [show base.head? = base[0]? from List.head?_eq_getElem? base]
    | succ j =>
      simp only [fillFromSeries, List.getElem?_cons_succ]
      rw [ih base.tail j]
      cases base with
      | nil => simp
      | cons b bs => simp only [List.tail_cons, List.getElem?_cons_succ]

/-- A missing cell of `xs` is filled with the base series' value of the same
bar. -/
private lemma fillFromSeries_getElem_none {base xs : Col} {i : ℕ}
    (h : xs[i]? = some none) :
    (fillFromSeries base xs)[i]? = some ((base[i]?).join) := by
  rw [fillFromSeries_getElem, h]
  rfl

/-- Filling with a scalar value leaves no missing cell. -/
private lemma map_fill_noneFree (v : ℤ) (c : Col) :
    noneFree (c.map (fun o => some (o.getD v))) = true := by
  simp [noneFree, List.all_eq_true]

end FrameLemmas

section FillnaClaims

/-- C4: when the closing-tick column is present, the returned frame's
closing-tick column is its forward fill (pass 1, before any other column is
processed), and every tick column (`openTick`, `highestTick`, `lowestTick`)
is filled from the already-filled closing-tick column: a present cell is
kept, and a missing cell takes the filled closing tick of the same bar —
not the column's own forward-fill rule, not an interpolation, not zero. -/
theorem fillna_close_first_ticks_follow (value : Option ℤ) (method : Option FillMethod)
    (df df' : Df) (ct : Col)
    (hok : fillna value method df = Except.ok df')
    (hct : df.lookup "closeTick" = some ct) :
    df'.lookup "closeTick" = some (ffill ct) ∧
    ∀ name, name ∈ tickCols → ∀ col, df.lookup name = some col →
      df'.lookup name = some (fillFromSeries (ffill ct) col) ∧
      ∀ i : ℕ, col[i]? = some none →
        (fillFromSeries (ffill ct) col)[i]? = some (((ffill ct)[i]?).join) := by
  unfold fillna at hok
  rw [hct] at hok
  constructor
  · obtain ⟨col', hf, hlook⟩ := mapColsM_lookup hok hct
    have hf2 : Except.ok (ffill ct) = Except.ok col' := hf
    injection hf2 with hf2
    subst hf2
    exact hlook
  · intro name hname col hcol
    obtain ⟨col', hf, hlook⟩ := mapColsM_lookup hok hcol
    fin_cases hname <;>
      (have hf2 : Except.ok (fillFromSeries (ffill ct) col) = Except.ok col' := hf;
       injection hf2 with hf2;
       subst hf2;
       exact ⟨hlook, fun i hi => fillFromSeries_getElem_none hi⟩)

/-- C4 witness: closing tick `[5, gap]` forward fills to `[5, 5]`, and the
fully missing opening-tick column takes those filled closing-tick values. -/
theorem fillna_close_first_ticks_follow_witness :
    fillna none none [("closeTick", [some 5, none]), ("openTick", [none, none])] =
      Except.ok [("closeTick", [some 5, some 5]), ("openTick", [some 5, some 5])] ∧
    ([("closeTick", [some 5, none]), ("openTick", [none, none])] : Df).lookup
      "closeTick" = some [some 5, none] ∧
    ([("closeTick", [some 5, some 5]), ("openTick", [some 5, some 5])] : Df).lookup
      "closeTick" = some (ffill [some 5, none]) := by
  have hok : fillna none none
      [("closeTick", [some 5, none]), ("openTick", [none, none])] =
      Except.ok [("closeTick", [some 5, some 5]), ("openTick", [some 5, some 5])] := rfl
  have hct : ([("closeTick", [some 5, none]), ("openTick", [none, none])] : Df).lookup
      "closeTick" = some [some 5, none] := rfl
  exact ⟨hok, hct, (fillna_close_first_ticks_follow none none _ _ _ hok hct).1⟩

/-- C7 counterexample: with the closing-tick column absent and caller default
method `bfill`, the opening-tick column `[1, gap]` is filled by its
registered forward fill to `[1, 1]`; filling it "using the caller-supplied
default method only", as the claim states, would give `[1, gap]` (backward
fill cannot fill a trailing gap), which differs. -/
theorem fillna_ticks_registered_method_cex :
    fillna none (some FillMethod.bfill) [("openTick", [some 1, none])] =
      Except.ok [("openTick", [some 1, some 1])] ∧
    series_fillna none (some FillMethod.bfill) [some 1, none] =
      Except.ok [some 1, none] ∧
    ([some 1, some 1] : Col) ≠ [some 1, none] := by
  refine ⟨rfl, rfl, by decide⟩

/-- C7 (amended): if the closing-tick column is absent, the pass-1 fill is
skipped and each tick-derived column present in the frame is, on a
successful call, filled by its registered forward-fill method (the caller's
default method is not used for it; a caller-supplied default value makes
the call fail because it cannot be combined with the registered method). -/
theorem fillna_ticks_without_close (value : Option ℤ) (method : Option FillMethod)
    (df df' : Df) (name : String) (col : Col)
    (hct : df.lookup "closeTick" = none)
    (hok : fillna value method df = Except.ok df')
    (hname : name ∈ tickCols) (hcol : df.lookup name = some col) :
    df'.lookup name = some (ffill col) := by
  unfold fillna at hok
  rw [hct] at hok
  obtain ⟨col', hf, hlook⟩ := mapColsM_lookup hok hcol
  fin_cases hname <;>
    (cases value with
     | some v =>
       exact absurd (show Except.error "Cannot specify both value and method" =
         Except.ok col' from hf) (by simp)
     | none =>
       have hf2 : Except.ok (ffill col) = Except.ok col' := hf
       injection hf2 with hf2
       subst hf2
       exact hlook)

/-- C7 witness: with no closing-tick column, the opening-tick column `[2, gap]`
is forward filled to `[2, 2]` on a successful call. -/
theorem fillna_ticks_without_close_witness :
    ([("openTick", [some 2, none])] : Df).lookup "closeTick" = none ∧
    fillna none none [("openTick", [some 2, none])] =
      Except.ok [("openTick", [some 2, some 2])] ∧
    ([("openTick", [some 2, some 2])] : Df).lookup "openTick" =
      some (ffill [some 2, none]) := by
  have hct : ([("openTick", [some 2, none])] : Df).lookup "closeTick" = none := rfl
  have hok : fillna none none [("openTick", [some 2, none])] =
      Except.ok [("openTick", [some 2, some 2])] := rfl
  exact ⟨hct, hok, fillna_ticks_without_close none none _ _ "openTick" _ hct hok
    (by decide) rfl⟩

/-- C6 counterexample: with a caller-supplied default method (`ffill`), a
zero-fill column is not filled with zero — the registered fill value 0 is
passed alongside the caller's method and the underlying fill rejects the
combination, so the call fails instead of producing the claimed frame. -/
theorem fillna_zero_cols_cex :
    fillna none (some FillMethod.ffill) [("netAmount0", [(none : Option ℤ)])] =
      Except.error "Cannot specify both value and method" ∧
    Except.error "Cannot specify both value and method" ≠
      Except.ok [("netAmount0", [some (0 : ℤ)])] :=
  ⟨rfl, fun h => Except.noConfusion h⟩

/-- C6 (amended): for a column with registered fill value zero (`netAmount0`,
`netAmount1`, `inAmount0`, `inAmount1`): when the caller supplies no default
fill method, every missing value is filled with exactly zero (for every
caller-supplied default value, which is overridden by the registered zero);
when a caller default method is supplied, the call fails rather than fill,
because the registered zero cannot be combined with a fill method. -/
theorem fillna_zero_value_cols (value : Option ℤ) (df : Df) (name : String) (col : Col)
    (hname : name ∈ zeroFillCols) (hcol : df.lookup name = some col) :
    (∀ df', fillna value none df = Except.ok df' →
      df'.lookup name = some (col.map (fun o => some (o.getD 0)))) ∧
    (∀ m, exOk (fillna value (some m) df) = false) := by
  constructor
  · intro df' hok
    unfold fillna at hok
    obtain ⟨col', hf, hlook⟩ := mapColsM_lookup hok hcol
    fin_cases hname <;>
      (have hf2 : Except.ok (col.map (fun o => some (o.getD (0 : ℤ)))) =
          Except.ok col' := hf;
       injection hf2 with hf2;
       subst hf2;
       exact hlook)
  · intro m
    have hmem := lookup_mem hcol
    unfold fillna
    fin_cases hname <;> exact mapColsM_mem_error hmem rfl

/-- C6 witness: a caller default value 7 is overridden — the gap in
`netAmount0` is filled with 0 — and a caller default method `ffill` makes
the call fail. -/
theorem fillna_zero_value_cols_witness :
    ("netAmount0" ∈ zeroFillCols) ∧
    ([("netAmount0", [none, some 5])] : Df).lookup "netAmount0" =
      some [none, some 5] ∧
    ([("netAmount0", [some 0, some 5])] : Df).lookup "netAmount0" =
      some (([none, some (5 : ℤ)] : Col).map (fun o => some (o.getD 0))) ∧
    exOk (fillna (some 7) (some FillMethod.ffill)
      [("netAmount0", [none, some 5])]) = false := by
  have hcol : ([("netAmount0", [none, some 5])] : Df).lookup "netAmount0" =
      some [none, some 5] := rfl
  have hc6 := fillna_zero_value_cols (some 7) [("netAmount0", [none, some 5])]
    "netAmount0" [none, some 5] (by decide) hcol
  exact ⟨by decide, hcol, hc6.1 _ rfl, hc6.2 FillMethod.ffill⟩

/-- C3 counterexample: a leading gap in the closing-tick column survives
`fillna` (forward fill has nothing to propagate into the first bar), so a
recognized column can still contain a missing value afterwards. -/
theorem fillna_leading_gap_cex :
    fillna none none [("closeTick", [(none : Option ℤ)])] =
      Except.ok [("closeTick", [none])] ∧
    noneFree [(none : Option ℤ)] = false :=
  ⟨rfl, rfl⟩

/-- C3 (amended): on a successful `fillna` call over a frame whose columns
share one length, no recognized column of the result contains a missing
value, provided every forward-filled column starts with a present value:
the closing tick and current liquidity when present, and the tick columns
when the closing tick is absent (forward fill cannot fill a leading gap).
Unrecognized columns are filled using only the caller's generic
value/method. -/
theorem fillna_recognized_no_missing (value : Option ℤ) (method : Option FillMethod)
    (df df' : Df)
    (hok : fillna value method df = Except.ok df')
    (hlen : ∀ p ∈ df, ∀ q ∈ df, (Prod.snd p).length = (Prod.snd q).length)
    (hcthead : ∀ col, df.lookup "closeTick" = some col → headFilled col = true)
    (hclhead : ∀ col, df.lookup "currentLiquidity" = some col → headFilled col = true)
    (hticks : ∀ name, name ∈ tickCols → df.lookup "closeTick" = none →
      ∀ col, df.lookup name = some col → headFilled col = true) :
    (∀ name, name ∈ recognizedDataCols → ∀ col', df'.lookup name = some col' →
      noneFree col' = true) ∧
    (∀ name col, LINE_RULES.lookup name = none → df.lookup name = some col →
      ∃ col', series_fillna value method col = Except.ok col' ∧
        df'.lookup name = some col') := by
  unfold fillna at hok
  constructor
  · intro name hname col' hlook'
    obtain ⟨col, hcol, hf⟩ := mapColsM_lookup_rev hok hlook'
    fin_cases hname
    · -- closeTick
      rw [hcol] at hf
      have hf2 : Except.ok (ffill col) = Except.ok col' := hf
      injection hf2 with hf2
      subst hf2
      exact ffill_noneFree (hcthead col hcol)
    · -- openTick
      cases hct : df.lookup "closeTick" with
      | some ct =>
        rw [hct] at hf
        have hf2 : Except.ok (fillFromSeries (ffill ct) col) = Except.ok col' := hf
        injection hf2 with hf2
        subst hf2
        refine fillFromSeries_noneFree col (ffill ct)
          (ffill_noneFree (hcthead ct hct)) ?_
        rw [ffill_length]
        exact le_of_eq (hlen _ (lookup_mem hcol) _ (lookup_mem hct))
      | none =>
        rw [hct] at hf
        cases value with
        | some v =>
          exact absurd (show Except.error "Cannot specify both value and method" =
            Except.ok col' from hf) (by simp)
        | none =>
          have hf2 : Except.ok (ffill col) = Except.ok col' := hf
          injection hf2 with hf2
          subst hf2
          exact ffill_noneFree (hticks _ (by decide) hct col hcol)
    · -- lowestTick
      cases hct : df.lookup "closeTick" with
      | some ct =>
        rw [hct] at hf
        have hf2 : Except.ok (fillFromSeries (ffill ct) col) = Except.ok col' := hf
        injection hf2 with hf2
        subst hf2
        refine fillFromSeries_noneFree col (ffill ct)
          (ffill_noneFree (hcthead ct hct)) ?_
        rw [ffill_length]
        exact le_of_eq (hlen _ (lookup_mem hcol) _ (lookup_mem hct))
      | none =>
        rw [hct] at hf
        cases value with
        | some v =>
          exact absurd (show Except.error "Cannot specify both value and method" =
            Except.ok col' from hf) (by simp)
        | none =>
          have hf2 : Except.ok (ffill col) = Except.ok col' := hf
          injection hf2 with hf2
          subst hf2
          exact ffill_noneFree (hticks _ (by decide) hct col hcol)
    · -- highestTick
      cases hct : df.lookup "closeTick" with
      | some ct =>
        rw [hct] at hf
        have hf2 : Except.ok (fillFromSeries (ffill ct) col) = Except.ok col' := hf
        injection hf2 with hf2
        subst hf2
        refine fillFromSeries_noneFree col (ffill ct)
          (ffill_noneFree (hcthead ct hct)) ?_
        rw [ffill_length]
        exact le_of_eq (hlen _ (lookup_mem hcol) _ (lookup_mem hct))
      | none =>
        rw [hct] at hf
        cases value with
        | some v =>
          exact absurd (show Except.error "Cannot specify both value and method" =
            Except.ok col' from hf) (by simp)
        | none =>
          have hf2 : Except.ok (ffill col) = Except.ok col' := hf
          injection hf2 with hf2
          subst hf2
          exact ffill_noneFree (hticks _ (by decide) hct col hcol)
    · -- netAmount0
      cases method with
      | some m =>
        exact absurd (show Except.error "Cannot specify both value and method" =
          Except.ok col' from hf) (by simp)
      | none =>
        have hf2 : Except.ok (col.map (fun o => some (o.getD (0 : ℤ)))) =
            Except.ok col' := hf
        injection hf2 with hf2
        subst hf2
        exact map_fill_noneFree 0 col
    · -- netAmount1
      cases method with
      | some m =>
        exact absurd (show Except.error "Cannot specify both value and method" =
          Except.ok col' from hf) (by simp)
      | none =>
        have hf2 : Except.ok (col.map (fun o => some (o.getD (0 : ℤ)))) =
            Except.ok col' := hf
        injection hf2 with hf2
        subst hf2
        exact map_fill_noneFree 0 col
    · -- inAmount0
      cases method with
      | some m =>
        exact absurd (show Except.error "Cannot specify both value and method" =
          Except.ok col' from hf) (by simp)
      | none =>
        have hf2 : Except.ok (col.map (fun o => some (o.getD (0 : ℤ)))) =
            Except.ok col' := hf
        injection hf2 with hf2
        subst hf2
        exact map_fill_noneFree 0 col
    · -- inAmount1
      cases method with
      | some m =>
        exact absurd (show Except.error "Cannot specify both value and method" =
          Except.ok col' from hf) (by simp)
      | none =>
        have hf2 : Except.ok (col.map (fun o => some (o.getD (0 : ℤ)))) =
            Except.ok col' := hf
        injection hf2 with hf2
        subst hf2
        exact map_fill_noneFree 0 col
    · -- currentLiquidity
      cases value with
      | some v =>
        exact absurd (show Except.error "Cannot specify both value and method" =
          Except.ok col' from hf) (by simp)
      | none =>
        have hf2 : Except.ok (ffill col) = Except.ok col' := hf
        injection hf2 with hf2
        subst hf2
        exact ffill_noneFree (hclhead col hcol)
  · intro name col hnot hcol
    obtain ⟨col', hf, hlook⟩ := mapColsM_lookup hok hcol
    have hne : ¬ name = "closeTick" := by
      intro h
      rw [h] at hnot
      exact absurd hnot (by decide)
    have hrule : get_line_rules_safe name = EMPTY_RULE := by
      unfold get_line_rules_safe
      rw [hnot]
      rfl
    refine ⟨col', ?_, hlook⟩
    unfold fillColumn at hf
    rw [if_neg hne, hrule] at hf
    exact hf

/-- C3 witness: a frame holding all nine recognized columns, with present
first cells in the forward-filled columns, comes back from `fillna` with no
missing value in any recognized column. -/
theorem fillna_recognized_no_missing_witness :
    fillna none none
      [("closeTick", [some 1]), ("openTick", [none]), ("lowestTick", [none]),
       ("highestTick", [none]), ("netAmount0", [none]), ("netAmount1", [none]),
       ("inAmount0", [none]), ("inAmount1", [none]), ("currentLiquidity", [some 3])] =
      Except.ok
      [("closeTick", [some 1]), ("openTick", [some 1]), ("lowestTick", [some 1]),
       ("highestTick", [some 1]), ("netAmount0", [some 0]), ("netAmount1", [some 0]),
       ("inAmount0", [some 0]), ("inAmount1", [some 0]), ("currentLiquidity", [some 3])] ∧
    (∀ name, name ∈ recognizedDataCols → ∀ col',
      ([("closeTick", [some 1]), ("openTick", [some 1]), ("lowestTick", [some 1]),
        ("highestTick", [some 1]), ("netAmount0", [some 0]), ("netAmount1", [some 0]),
        ("inAmount0", [some 0]), ("inAmount1", [some 0]),
        ("currentLiquidity", [some 3])] : Df).lookup name = some col' →
      noneFree col' = true) := by
  have hok : fillna none none
      [("closeTick", [some 1]), ("openTick", [none]), ("lowestTick", [none]),
       ("highestTick", [none]), ("netAmount0", [none]), ("netAmount1", [none]),
       ("inAmount0", [none]), ("inAmount1", [none]), ("currentLiquidity", [some 3])] =
      Except.ok
      [("closeTick", [some 1]), ("openTick", [some 1]), ("lowestTick", [some 1]),
       ("highestTick", [some 1]), ("netAmount0", [some 0]), ("netAmount1", [some 0]),
       ("inAmount0", [some 0]), ("inAmount1", [some 0]),
       ("currentLiquidity", [some 3])] := rfl
  refine ⟨hok, (fillna_recognized_no_missing none none _ _ hok ?_ ?_ ?_ ?_).1⟩
  · decide
  · intro col h
    have h2 : some [some (1 : ℤ)] = some col := h
    injection h2 with h2
    rw [← h2]
    rfl
  · intro col h
    have h2 : some [some (3 : ℤ)] = some col := h
    injection h2 with h2
    rw [← h2]
    rfl
  · intro name hmem h
    exact absurd (show (some [some (1 : ℤ)] : Option Col) = none from h) (by simp)

end FillnaClaims

section ResampleClaims

/-- Splitting a record list by any predicate splits the sum of its present
values. -/
private lemma filterMap_snd_filter_sum (p : ℕ × Option ℤ → Bool)
    (l : List (ℕ × Option ℤ)) :
    ((l.filter p).filterMap Prod.snd).sum +
      ((l.filter (fun r => !(p r))).filterMap Prod.snd).sum =
    (l.filterMap Prod.snd).sum := by
  induction l with
  | nil => simp
  | cons hd tl ih =>
    obtain ⟨t, v⟩ := hd
    by_cases hp : p (t, v) = true
    · rw [List.filter_cons_of_pos hp, List.filter_cons_of_neg (by simp [hp])]
      cases v with
      | none =>
        simp only [List.filterMap_cons]
        exact ih
      | some x =>
        simp only [List.filterMap_cons, List.sum_cons]
        omega
    · rw [List.filter_cons_of_neg hp, List.filter_cons_of_pos (by simp [hp])]
      cases v with
      | none =>
        simp only [List.filterMap_cons]
        exact ih
      | some x =>
        simp only [List.filterMap_cons, List.sum_cons]
        omega

/-- Fuelled form of the resampling sum-exactness: the bar sums of a
sum-aggregated column add up to the sum of the raw present values. -/
private lemma resampleColumnFuel_sum :
    ∀ (n w : ℕ) (rows : List (ℕ × Option ℤ)), rows.length ≤ n →
      ((resampleColumnFuel n w AggM.sum rows).filterMap id).sum =
        (rows.filterMap Prod.snd).sum := by
  intro n
  induction n with
  | zero =>
    intro w rows h
    have hnil : rows = [] := List.length_eq_zero.mp (Nat.le_zero.mp h)
    subst hnil
    rfl
  | succ n ih =>
    intro w rows h
    cases rows with
    | nil => rfl
    | cons hd rest =>
      obtain ⟨t, v⟩ := hd
      have hlen : (rest.filter (fun r => !(sameKey w t r))).length ≤ n := by
        have h1 : rest.length ≤ n := by
          simpa using Nat.lt_succ_iff.mp (Nat.lt_of_lt_of_le (by simp) h)
        exact le_trans (List.length_filter_le _ _) h1
      have hpart := filterMap_snd_filter_sum (sameKey w t) rest
      cases v with
      | none =>
        simp only [resampleColumnFuel, applyAgg, List.filterMap_cons, id_eq,
          List.sum_cons]
        rw [ih w _ hlen]
        omega
      | some x =>
        simp only [resampleColumnFuel, applyAgg, List.filterMap_cons, id_eq,
          List.sum_cons]
        rw [ih w _ hlen]
        omega

/-- Resampling sum-exactness over the timestamped cells. -/
private lemma resampleColumn_sum (w : ℕ) (rows : List (ℕ × Option ℤ)) :
    ((resampleColumn w AggM.sum rows).filterMap id).sum =
      (rows.filterMap Prod.snd).sum :=
  resampleColumnFuel_sum rows.length w rows le_rfl

/-- Zipping a column with its equal-length timestamps keeps exactly the
present values. -/
private lemma zip_filterMap_snd :
    ∀ (ts : List ℕ) (xs : Col), ts.length = xs.length →
      (ts.zip xs).filterMap Prod.snd = xs.filterMap id := by
  intro ts
  induction ts with
  | nil =>
    intro xs h
    cases xs with
    | nil => rfl
    | cons x xs' => simp at h
  | cons t ts' ih =>
    intro xs h
    cases xs with
    | nil => simp at h
    | cons x xs' =>
      simp only [List.zip_cons_cons, List.filterMap_cons, id_eq]
      cases x with
      | none => exact ih xs' (by simpa using h)
      | some y => rw [ih xs' (by simpa using h)]

/-- C5: for every sum-rule column (`netAmount0`, `netAmount1`, `inAmount0`,
`inAmount1`, `currentLiquidity`), the resampled output column is the
per-bar sum of the raw cells, and the sum of the resampled bar values equals
the sum of the raw input values over the same time span, exactly. -/
theorem resample_sum_cols_exact (w : ℕ) (agg : List (String × String)) (ts : List ℕ)
    (df out : Df) (name : String) (col : Col)
    (hname : name ∈ sumRuleCols)
    (hok : resample w agg ts df = Except.ok out)
    (hcol : df.lookup name = some col) (hlen : ts.length = col.length) :
    out.lookup name = some (resampleColumn w AggM.sum (ts.zip col)) ∧
    ((resampleColumn w AggM.sum (ts.zip col)).filterMap id).sum =
      (col.filterMap id).sum := by
  unfold resample at hok
  obtain ⟨col', hf, hlook⟩ := mapColsM_lookup hok hcol
  constructor
  · fin_cases hname <;>
      (have hf2 : Except.ok (resampleColumn w AggM.sum (ts.zip col)) =
          Except.ok col' := hf;
       injection hf2 with hf2;
       subst hf2;
       exact hlook)
  · rw [resampleColumn_sum w (ts.zip col), zip_filterMap_snd ts col hlen]

/-- C5 witness: bars of width 2 over `netAmount0 = [1, gap, 5]` resample to
`[1, 5]`, and both sides sum to 6. -/
theorem resample_sum_cols_exact_witness :
    ("netAmount0" ∈ sumRuleCols) ∧
    resample 2 ([] : List (String × String)) [0, 1, 2]
      [("netAmount0", [some 1, none, some 5])] =
      Except.ok [("netAmount0", [some 1, some 5])] ∧
    ([("netAmount0", [some 1, some 5])] : Df).lookup "netAmount0" =
      some (resampleColumn 2 AggM.sum ([0, 1, 2].zip [some 1, none, some 5])) ∧
    ((resampleColumn 2 AggM.sum
        ([0, 1, 2].zip [some 1, none, some 5])).filterMap id).sum =
      (([some 1, none, some (5 : ℤ)] : Col).filterMap id).sum := by
  have hok : resample 2 ([] : List (String × String)) [0, 1, 2]
      [("netAmount0", [some 1, none, some 5])] =
      Except.ok [("netAmount0", [some 1, some 5])] := rfl
  have h := resample_sum_cols_exact 2 ([] : List (String × String)) [0, 1, 2]
    [("netAmount0", [some 1, none, some 5])] [("netAmount0", [some 1, some 5])]
    "netAmount0" [some 1, none, some 5] (by decide) hok rfl rfl
  exact ⟨by decide, hok, h.1, h.2⟩

/-- C8: in `resample`, a column absent from the column-rule table is
aggregated with the caller's `agg` entry when present and with the default
rule `"first"` otherwise, while a column whose registered rule carries an
aggregation method is aggregated with exactly that method — a caller `agg`
entry never overrides a registered method. -/
theorem resample_agg_dispatch (agg : List (String × String)) (name : String) :
    (LINE_RULES.lookup name = none →
      selectAggMethod agg name = (agg.lookup name).getD DEFAULT_AGG_METHOD) ∧
    (∀ r m, LINE_RULES.lookup name = some r → r.agg = some m →
      selectAggMethod agg name = m) := by
  constructor
  · intro h
    unfold selectAggMethod get_line_rules_safe
    rw [h]
    cases hl : agg.lookup name with
    | none => rfl
    | some m => rfl
  · intro r m hr hm
    unfold selectAggMethod get_line_rules_safe
    rw [hr, show (some r).getD EMPTY_RULE = r from rfl, hm]

/-- C8 witness: the unregistered column `"volume"` takes the caller's entry
(`max`), while a caller entry for `netAmount0` cannot override its
registered `sum`. -/
theorem resample_agg_dispatch_witness :
    LINE_RULES.lookup "volume" = none ∧
    selectAggMethod [("volume", "max")] "volume" = "max" ∧
    selectAggMethod [("netAmount0", "last")] "netAmount0" = "sum" := by
  refine ⟨by decide, ?_, ?_⟩
  · exact (resample_agg_dispatch [("volume", "max")] "volume").1 (by decide)
  · exact (resample_agg_dispatch [("netAmount0", "last")] "netAmount0").2
      ⟨some "sum", none, some 0⟩ "sum" (by decide) rfl

end ResampleClaims

end Demeter
